import Mathlib

/-!
Shallow embedding of the `derive(Freeze)` code generator of
`src/starlark_derive/src/freeze.rs`, together with a small runtime
interpretation of the code it emits, and theorems settling the spec
claims about it.

Modelling conventions:
* `syn` token streams are abstracted to already-tokenised argument
  items (`FreezeAttrItem`, `FieldAttrContent`); the item-level parse
  loop of `extract_options` and `is_identity` is translated verbatim.
* Rust panics (`assert!`, `panic!`, `unimplemented!`, `.unwrap()`)
  abort generation with a message; generation is therefore modelled in
  `Except String`.  For `unimplemented!(msg)` we record the argument
  string `msg` as the abort message.
* `quote!` fragments are modelled structurally: generic-parameter
  fragments are rendered to strings exactly following the quoted
  tokens, per-field fragments become `FieldPlan` values recording the
  binding (name or positional index), whether the identity path was
  taken, and which capability procedure the fragment invokes.
* The behaviour at run time of the emitted `fn freeze` body is given
  by a small interpreter (`runFreeze`) over an environment supplying
  the semantics of the two capability procedures the fragments call.
-/

namespace StarlarkDerive

/-- A generic parameter of the input declaration (`syn::GenericParam`):
a type parameter with its declared bound list, a lifetime parameter, or
a const parameter. -/
inductive GenericParam where
  | type (name : String) (bounds : List String)
  | lifetime (name : String)
  | const (name : String)
deriving DecidableEq, Repr

/-- One recognised item of a type-level `#[freeze(...)]` argument list:
`validator = <identifier>`, `bounds = <string literal>`, or an
unrecognised keyword. -/
inductive FreezeAttrItem where
  | validator (name : String)
  | bounds (pred : String)
  | unknown
deriving DecidableEq, Repr

/-- A type-level attribute: its path (`freeze` or anything else) and
its tokenised argument items. -/
structure TypeAttr where
  path : String
  items : List FreezeAttrItem
deriving DecidableEq, Repr

/-- The argument content of one field-level attribute:
empty (`#[freeze()]`), the bare `identity` keyword, `identity`
followed by further tokens, or content that does not start with
`identity`. -/
inductive FieldAttrContent where
  | empty
  | identity
  | identityExtra
  | other
deriving DecidableEq, Repr

/-- A field-level attribute: its path and its argument content. -/
structure FieldAttr where
  path : String
  content : FieldAttrContent
deriving DecidableEq, Repr

/-- `FreezeDeriveOptions` of freeze.rs: the type-level configuration. -/
structure FreezeDeriveOptions where
  validator : Option String
  bounds : Option String
deriving DecidableEq, Repr

/-- One iteration of the `loop` in `extract_options`:
on `validator` the code asserts `opts.bounds.is_none()` with message
"set validator twice" (the source really tests `bounds`, not
`validator`) and then stores the identifier; on `bounds` it asserts
`opts.bounds.is_none()` with message "set bounds twice" and stores the
parsed predicate; any other keyword aborts with the lookahead error. -/
def parseItem (opts : FreezeDeriveOptions) : FreezeAttrItem → Except String FreezeDeriveOptions
  | .validator v =>
      if opts.bounds.isNone then .ok { opts with validator := some v }
      else .error "set validator twice"
  | .bounds b =>
      if opts.bounds.isNone then .ok { opts with bounds := some b }
      else .error "set bounds twice"
  | .unknown => .error "expected one of: `validator`, `bounds`"

/-- The items of one attribute, processed left to right, fail-fast. -/
def parseItems (opts : FreezeDeriveOptions) : List FreezeAttrItem → Except String FreezeDeriveOptions
  | [] => .ok opts
  | i :: rest => do
      let opts2 ← parseItem opts i
      parseItems opts2 rest

/-- `attr.parse_args_with(...)` for one `#[freeze(...)]` attribute: the
loop body runs at least once, so an empty argument list aborts with the
lookahead error. -/
def parseFreezeAttr (opts : FreezeDeriveOptions) (items : List FreezeAttrItem) : Except String FreezeDeriveOptions :=
  match items with
  | [] => .error "expected one of: `validator`, `bounds`"
  | _ :: _ => parseItems opts items

/-- `extract_options` of freeze.rs: fold all attributes over the
default options, skipping attributes whose path is not `freeze`. -/
def extract_options (attrs : List TypeAttr) : Except String FreezeDeriveOptions :=
  attrs.foldlM
    (fun opts attr =>
      if attr.path = "freeze" then parseFreezeAttr opts attr.items else .ok opts)
    ⟨none, none⟩

/-- `is_identity` of freeze.rs: `attrs.iter().any(...)` over the
`freeze`-path attributes, where each parse returns true on a bare
`identity`, false on empty content, and panics (via `.unwrap()`) on
any other content.  `any` short-circuits on the first true. -/
def is_identity : List FieldAttr → Except String Bool
  | [] => .ok false
  | a :: rest =>
      if a.path = "freeze" then
        match a.content with
        | .identity => .ok true
        | .empty => is_identity rest
        | .identityExtra => .error "unexpected token"
        | .other => .error "unexpected token"
      else is_identity rest

/-- Rendering of `#(#bounds +)*`: each declared bound followed by
`" + "`. -/
def renderBounds (bounds : List String) : String :=
  String.join (bounds.map (fun b => b ++ " + "))

/-- Rendering of the impl-parameter fragment
`#name: #(#bounds +)* starlark::values::Freeze` pushed for a type
parameter in `format_impl_generics`. -/
def renderImplTypeParam (name : String) (bounds : List String) : String :=
  name ++ ": " ++ renderBounds bounds ++ "starlark::values::Freeze"

/-- The `for param in &self.input.generics.params` loop of
`format_impl_generics`, building the impl, input and output parameter
lists in declaration order; a const parameter aborts with
"const generics not supported". -/
def formatGenericsLoop : List GenericParam → Except String (List String × List String × List String)
  | [] => .ok ([], [], [])
  | .type n bs :: rest => do
      let (imps, ins, outs) ← formatGenericsLoop rest
      .ok (renderImplTypeParam n bs :: imps, n :: ins, (n ++ "::Frozen") :: outs)
  | .lifetime n :: rest => do
      let (imps, ins, outs) ← formatGenericsLoop rest
      .ok (n :: imps, n :: ins, "'static" :: outs)
  | .const _ :: _ => .error "const generics not supported"

/-- `Input::format_impl_generics`: the impl parameter list starts with
the synthesized lifetime `'freeze`, then the loop over the declared
parameters. -/
def format_impl_generics (params : List GenericParam) : Except String (List String × List String × List String) := do
  let (imps, ins, outs) ← formatGenericsLoop params
  .ok ("'freeze" :: imps, ins, outs)

/-- A named field: its identifier and its attributes. -/
structure NamedField where
  name : String
  attrs : List FieldAttr
deriving DecidableEq, Repr

/-- An unnamed (positional) field: its attributes. -/
structure UnnamedField where
  attrs : List FieldAttr
deriving DecidableEq, Repr

/-- `syn::Fields`: named, unnamed or unit. -/
inductive StructFields where
  | named (fs : List NamedField)
  | unnamed (fs : List UnnamedField)
  | unit
deriving DecidableEq, Repr

/-- The per-field fragment emitted by `freeze_struct`, recording the
binding and the path taken:
* `namedIdentity n`  — `#name: self.#name,`
* `namedFreeze n`    — `#name: starlark::values::Freeze::freeze(self.#name, freezer)?,`
* `posIdentity i`    — `self.#i`
* `posFreeze i`      — `starlark::values::FreezeField::freeze_field(self.#i, freezer)?` -/
inductive FieldPlan where
  | namedIdentity (name : String)
  | namedFreeze (name : String)
  | posIdentity (idx : Nat)
  | posFreeze (idx : Nat)
deriving DecidableEq, Repr

/-- The capability procedure a field fragment invokes, read off the
quoted call; `none` for the identity path. -/
def FieldPlan.invokedProc : FieldPlan → Option String
  | .namedFreeze _ => some "starlark::values::Freeze::freeze"
  | .posFreeze _ => some "starlark::values::FreezeField::freeze_field"
  | .namedIdentity _ => none
  | .posIdentity _ => none

/-- The body token stream emitted by `freeze_struct`:
`Ok(Name { ... })` for named fields, `Ok(Name ( ... ))` for unnamed
fields, and an empty stream for a unit struct. -/
inductive GenBody where
  | okNamed (name : String) (plans : List FieldPlan)
  | okUnnamed (name : String) (plans : List FieldPlan)
  | unit
deriving DecidableEq, Repr

/-- The `fields.named.iter().map(...)` of `freeze_struct`: one fragment
per named field in declaration order; a bad field attribute aborts
(fail-fast, left to right). -/
def planFields : List NamedField → Except String (List FieldPlan)
  | [] => .ok []
  | f :: rest => do
      let id ← is_identity f.attrs
      let plans ← planFields rest
      .ok ((if id then FieldPlan.namedIdentity f.name else FieldPlan.namedFreeze f.name) :: plans)

/-- The `fields.unnamed.iter().enumerate().map(...)` of `freeze_struct`
over the already-enumerated list: one fragment per positional field,
carrying its original index. -/
def planPosFields : List (Nat × UnnamedField) → Except String (List FieldPlan)
  | [] => .ok []
  | (i, f) :: rest => do
      let id ← is_identity f.attrs
      let plans ← planPosFields rest
      .ok ((if id then FieldPlan.posIdentity i else FieldPlan.posFreeze i) :: plans)

/-- `freeze_struct` of freeze.rs. -/
def freeze_struct (name : String) : StructFields → Except String GenBody
  | .named fs => do
      let ps ← planFields fs
      .ok (GenBody.okNamed name ps)
  | .unnamed fs => do
      let ps ← planPosFields fs.enum
      .ok (GenBody.okUnnamed name ps)
  | .unit => .ok GenBody.unit

/-- `syn::Data`: struct, enum or union.  `freeze_enum` and the union
arm ignore the variant/field payload entirely, so it is not modelled. -/
inductive DeclData where
  | struct (fields : StructFields)
  | enum
  | union
deriving DecidableEq, Repr

/-- `freeze_impl` of freeze.rs: dispatch on the declaration shape;
enums and unions abort via `unimplemented!` with the recorded
argument message. -/
def freeze_impl (name : String) : DeclData → Except String GenBody
  | .struct fields => freeze_struct name fields
  | .enum => .error "Can't derive freeze for enums"
  | .union => .error "Can't derive freeze for unions"

/-- The analysed `DeriveInput`: name, generic parameters, type-level
attributes and data shape. -/
structure DeriveInput where
  ident : String
  generics : List GenericParam
  attrs : List TypeAttr
  data : DeclData
deriving DecidableEq, Repr

/-- The generated `impl ... Freeze for ...` block assembled by
`derive_freeze`: the three parameter lists, the optional validator
call placed at the head of the body, the optional `where #bounds`
clause, and the field-transformation body. -/
structure GeneratedImpl where
  name : String
  impl_params : List String
  input_params : List String
  output_params : List String
  validator : Option String
  where_clause : Option String
  body : GenBody
deriving DecidableEq, Repr

/-- `derive_freeze` of freeze.rs, in source order:
`format_impl_generics` first, then `extract_options`, then
`freeze_impl`, then assembly of the quoted impl block. -/
def derive_freeze (input : DeriveInput) : Except String GeneratedImpl := do
  let (imps, ins, outs) ← format_impl_generics input.generics
  let opts ← extract_options input.attrs
  let body ← freeze_impl input.ident input.data
  .ok ⟨input.ident, imps, ins, outs, opts.validator, opts.bounds, body⟩

/-! ### Runtime interpretation of the emitted `fn freeze` body -/

/-- The external capability procedures the emitted fragments call:
`starlark::values::Freeze::freeze(·, freezer)` and
`starlark::values::FreezeField::freeze_field(·, freezer)`, each a
fallible transformation of a field value. -/
structure FreezeEnv (E V : Type) where
  freezeFn : V → Except E V
  freezeFieldFn : V → Except E V

/-- Run one field fragment on the field's current value. -/
def runPlan {E V : Type} (env : FreezeEnv E V) (v : V) : FieldPlan → Except E V
  | .namedIdentity _ => .ok v
  | .posIdentity _ => .ok v
  | .namedFreeze _ => env.freezeFn v
  | .posFreeze _ => env.freezeFieldFn v

/-- Run the field fragments left to right on the paired field values;
a `?` failure aborts the whole struct literal. -/
def runPlans {E V : Type} (env : FreezeEnv E V) : List (FieldPlan × V) → Except E (List V)
  | [] => .ok []
  | (p, v) :: rest => do
      let w ← runPlan env v p
      let ws ← runPlans env rest
      .ok (w :: ws)

/-- The `#validate_body` statement: `#validator(&self)?;` when a
validator is configured, nothing otherwise. -/
def runValidate {E V : Type} (validate : Option (List V → Except E PUnit)) (self : List V) : Except E PUnit :=
  match validate with
  | some f => f self
  | none => .ok PUnit.unit

/-- The emitted `fn freeze` body: the validator statement first, then
the field transformations building the output value, the input value
being its list of field values in declaration order. -/
def runFreeze {E V : Type} (env : FreezeEnv E V) (validate : Option (List V → Except E PUnit))
    (plans : List FieldPlan) (self : List V) : Except E (List V) := do
  let _ ← runValidate validate self
  runPlans env (plans.zip self)

/-- Pointwise fallible transformation of all field values, left to
right and fail-fast — “all per-field transformations succeed” means
this returns `ok`. -/
def freezeAll {E V : Type} (f : V → Except E V) : List V → Except E (List V)
  | [] => .ok []
  | v :: rest => do
      let w ← f v
      let ws ← freezeAll f rest
      .ok (w :: ws)

/-! ### Statement-side helpers -/

/-- Whether a generic parameter is a const parameter. -/
def GenericParam.isConst : GenericParam → Bool
  | .const _ => true
  | .type _ _ => false
  | .lifetime _ => false

/-- The impl-parameter entry the spec invariant predicts for one
declared generic parameter (the const arm is unreachable). -/
def implEntry : GenericParam → String
  | .type n bs => renderImplTypeParam n bs
  | .lifetime n => n
  | .const n => n

/-- The input-form entry the spec invariant predicts: the bare name. -/
def inputEntry : GenericParam → String
  | .type n _ => n
  | .lifetime n => n
  | .const n => n

/-- The output-form entry the spec invariant predicts: the frozen
associated form for a type parameter, `'static` for a lifetime. -/
def outputEntry : GenericParam → String
  | .type n _ => n ++ "::Frozen"
  | .lifetime _ => "'static"
  | .const n => n

/-- A declaration whose shape is an empty enum-like data. -/
def enumInput : DeriveInput := ⟨"E", [], [], DeclData.enum⟩

/-- A union declaration. -/
def unionInput : DeriveInput := ⟨"U", [], [], DeclData.union⟩

/-- A unit struct with one const generic parameter. -/
def constInput : DeriveInput :=
  ⟨"S", [GenericParam.const "N"], [], DeclData.struct StructFields.unit⟩

/-- `struct S<T> { field: T }` with `#[freeze(bounds = "T: MyTrait")]`. -/
def boundsInput : DeriveInput :=
  ⟨"S", [GenericParam.type "T" []],
    [⟨"freeze", [FreezeAttrItem.bounds "T: MyTrait"]⟩],
    DeclData.struct (StructFields.named [⟨"field", []⟩])⟩

/-! ### Helper lemmas -/

/-- Reduction of the monadic bind of `Except` on a success. -/
theorem except_bind_ok {E A B : Type} (a : A) (f : A → Except E B) :
    (Except.ok a >>= f) = f a := rfl

/-- Reduction of the monadic bind of `Except` on a failure. -/
theorem except_bind_error {E A B : Type} (e : E) (f : A → Except E B) :
    ((Except.error e : Except E A) >>= f) = Except.error e := rfl

/-- If any declared generic parameter is a const parameter, the
parameter loop aborts with the fixed const message. -/
theorem formatGenericsLoop_const_mem {params : List GenericParam} {n : String}
    (h : GenericParam.const n ∈ params) :
    formatGenericsLoop params = Except.error "const generics not supported" := by
  induction params with
  | nil => cases h
  | cons p rest ih =>
    cases p with
    | type m bs =>
      have hrest : GenericParam.const n ∈ rest := by
        rcases List.mem_cons.mp h with h1 | h1
        · cases h1
        · exact h1
      simp [formatGenericsLoop, ih hrest, except_bind_error]
    | lifetime m =>
      have hrest : GenericParam.const n ∈ rest := by
        rcases List.mem_cons.mp h with h1 | h1
        · cases h1
        · exact h1
      simp [formatGenericsLoop, ih hrest, except_bind_error]
    | const m => simp [formatGenericsLoop]

/-- The parameter loop on a const-free list produces the three
parallel entry lists of the invariant. -/
theorem formatGenericsLoop_eq (params : List GenericParam)
    (hconst : ∀ p ∈ params, p.isConst = false) :
    formatGenericsLoop params =
      Except.ok (params.map implEntry, params.map inputEntry, params.map outputEntry) := by
  induction params with
  | nil => rfl
  | cons p rest ih =>
    have hrest : ∀ q ∈ rest, q.isConst = false :=
      fun q hq => hconst q (List.mem_cons_of_mem _ hq)
    cases p with
    | type n bs =>
      simp [formatGenericsLoop, ih hrest, implEntry, inputEntry, outputEntry, except_bind_ok]
    | lifetime n =>
      simp [formatGenericsLoop, ih hrest, implEntry, inputEntry, outputEntry, except_bind_ok]
    | const n =>
      have := hconst (GenericParam.const n) (List.mem_cons_self _ _)
      simp [GenericParam.isConst] at this

/-- The second component of an entry of an enumerated list is a member
of the underlying list. -/
theorem snd_mem_of_mem_enumFrom {α : Type} {p : Nat × α} :
    ∀ {k : Nat} {l : List α}, p ∈ List.enumFrom k l → p.2 ∈ l := by
  intro k l
  induction l generalizing k with
  | nil => intro h; cases h
  | cons a rest ih =>
    intro h
    rcases List.mem_cons.mp h with h1 | h1
    · simp [h1]
    · exact List.mem_cons_of_mem _ (ih h1)

/-- Fields that all parse as non-identity are all planned as recursive
freezes, in declaration order under their declared names. -/
theorem planFields_all_freeze (fs : List NamedField)
    (hid : ∀ f ∈ fs, is_identity f.attrs = Except.ok false) :
    planFields fs = Except.ok (fs.map fun f => FieldPlan.namedFreeze f.name) := by
  induction fs with
  | nil => rfl
  | cons f rest ih =>
    have h1 := hid f (List.mem_cons_self _ _)
    have h2 : ∀ g ∈ rest, is_identity g.attrs = Except.ok false :=
      fun g hg => hid g (List.mem_cons_of_mem _ hg)
    simp [planFields, h1, ih h2, except_bind_ok]

/-- Enumerated positional fields that all parse as non-identity are
all planned as recursive freezes carrying their original index. -/
theorem planPosFields_all_freeze (l : List (Nat × UnnamedField))
    (hid : ∀ p ∈ l, is_identity p.2.attrs = Except.ok false) :
    planPosFields l = Except.ok (l.map fun p => FieldPlan.posFreeze p.1) := by
  induction l with
  | nil => rfl
  | cons p rest ih =>
    obtain ⟨i, f⟩ := p
    have h1 := hid (i, f) (List.mem_cons_self _ _)
    have h2 : ∀ q ∈ rest, is_identity q.2.attrs = Except.ok false :=
      fun q hq => hid q (List.mem_cons_of_mem _ hq)
    simp only at h1
    simp [planPosFields, h1, ih h2, except_bind_ok]

/-- Running a list of named recursive-freeze fragments zipped with the
field values is the pointwise transformation by the named-field
capability procedure. -/
theorem runPlans_named_freeze {E V : Type} (env : FreezeEnv E V)
    (fs : List NamedField) (self : List V) (hlen : self.length = fs.length) :
    runPlans env ((fs.map fun f => FieldPlan.namedFreeze f.name).zip self)
      = freezeAll env.freezeFn self := by
  induction fs generalizing self with
  | nil =>
    cases self with
    | nil => rfl
    | cons v vs => simp at hlen
  | cons f rest ih =>
    cases self with
    | nil => simp at hlen
    | cons v vs =>
      simp only [List.length_cons, Nat.succ.injEq] at hlen
      show (env.freezeFn v >>= fun w =>
          runPlans env ((rest.map fun f => FieldPlan.namedFreeze f.name).zip vs) >>= fun ws =>
            Except.ok (w :: ws)) = _
      rw [ih vs hlen]
      rfl

/-- Running a list of positional recursive-freeze fragments zipped
with the field values is the pointwise transformation by the
positional-field capability procedure. -/
theorem runPlans_pos_freeze {E V : Type} (env : FreezeEnv E V)
    (idxs : List Nat) (self : List V) (hlen : self.length = idxs.length) :
    runPlans env ((idxs.map FieldPlan.posFreeze).zip self)
      = freezeAll env.freezeFieldFn self := by
  induction idxs generalizing self with
  | nil =>
    cases self with
    | nil => rfl
    | cons v vs => simp at hlen
  | cons i rest ih =>
    cases self with
    | nil => simp at hlen
    | cons v vs =>
      simp only [List.length_cons, Nat.succ.injEq] at hlen
      show (env.freezeFieldFn v >>= fun w =>
          runPlans env ((rest.map FieldPlan.posFreeze).zip vs) >>= fun ws =>
            Except.ok (w :: ws)) = _
      rw [ih vs hlen]
      rfl

/-- A successful pointwise transformation preserves the length. -/
theorem freezeAll_length {E V : Type} (f : V → Except E V) :
    ∀ (self out : List V), freezeAll f self = Except.ok out → out.length = self.length := by
  intro self
  induction self with
  | nil =>
    intro out h
    simp only [freezeAll] at h
    cases h
    rfl
  | cons v vs ih =>
    intro out h
    simp only [freezeAll] at h
    cases hf : f v with
    | error e => rw [hf, except_bind_error] at h; cases h
    | ok w =>
      rw [hf, except_bind_ok] at h
      cases hall : freezeAll f vs with
      | error e => rw [hall, except_bind_error] at h; cases h
      | ok ws =>
        rw [hall, except_bind_ok] at h
        cases h
        simp [ih ws hall]

/-! ### Claims -/

/-- Claim C1: the spec says declaring `validator` twice aborts with
"set validator twice" and declaring `bounds` twice aborts with
"set bounds twice".  The code's assert for the validator arm tests
`opts.bounds` instead of `opts.validator`, so a duplicated validator
is silently accepted and the second identifier wins; only the bounds
half of the claim holds.  This theorem evaluates `extract_options` at
the failing input `#[freeze(validator = f, validator = g)]` and at the
duplicated-bounds input. -/
theorem extract_options_duplicate_validator_accepted :
    extract_options [⟨"freeze", [FreezeAttrItem.validator "f", FreezeAttrItem.validator "g"]⟩]
      = Except.ok ⟨some "g", none⟩ ∧
    extract_options [⟨"freeze", [FreezeAttrItem.bounds "A: B", FreezeAttrItem.bounds "C: D"]⟩]
      = Except.error "set bounds twice" :=
  ⟨rfl, rfl⟩

/-- Claim C3: the spec says one `validator` plus one `bounds` parses
successfully in either order.  Because the validator arm asserts
`opts.bounds.is_none()`, the order `bounds` before `validator` aborts
with "set validator twice" — in one attribute and equally when split
across two attributes — while the order `validator` before `bounds`
succeeds.  This theorem evaluates all three inputs. -/
theorem extract_options_order_dependent :
    extract_options [⟨"freeze", [FreezeAttrItem.validator "f", FreezeAttrItem.bounds "T: Tr"]⟩]
      = Except.ok ⟨some "f", some "T: Tr"⟩ ∧
    extract_options [⟨"freeze", [FreezeAttrItem.bounds "T: Tr", FreezeAttrItem.validator "f"]⟩]
      = Except.error "set validator twice" ∧
    extract_options [⟨"freeze", [FreezeAttrItem.bounds "T: Tr"]⟩,
        ⟨"freeze", [FreezeAttrItem.validator "f"]⟩]
      = Except.error "set validator twice" :=
  ⟨rfl, rfl, rfl⟩

/-- Claim C4: the spec says named and positional non-identity fields
are frozen through the same capability procedure.  The generated
fragment for a named field invokes `starlark::values::Freeze::freeze`
while the fragment for a positional field invokes the distinct
procedure `starlark::values::FreezeField::freeze_field`, although the
impl's own generic bounds only require `starlark::values::Freeze`.
This theorem evaluates `freeze_struct` on a one-field named struct and
a one-field tuple struct and compares the invoked procedures. -/
theorem freeze_struct_positional_distinct_contract :
    freeze_struct "S" (StructFields.named [⟨"a", []⟩])
      = Except.ok (GenBody.okNamed "S" [FieldPlan.namedFreeze "a"]) ∧
    freeze_struct "S" (StructFields.unnamed [⟨[]⟩])
      = Except.ok (GenBody.okUnnamed "S" [FieldPlan.posFreeze 0]) ∧
    FieldPlan.invokedProc (FieldPlan.namedFreeze "a")
      = some "starlark::values::Freeze::freeze" ∧
    FieldPlan.invokedProc (FieldPlan.posFreeze 0)
      = some "starlark::values::FreezeField::freeze_field" ∧
    ("starlark::values::FreezeField::freeze_field" : String)
      ≠ "starlark::values::Freeze::freeze" :=
  ⟨rfl, rfl, rfl, rfl, by decide⟩

/-- Claim C5 counterexample: the claim states the abort message for an
enum shape is exactly "cannot derive for enums"; the code's message is
"Can't derive freeze for enums". -/
theorem freeze_enum_message_differs :
    derive_freeze enumInput = Except.error "Can't derive freeze for enums" ∧
    ("Can't derive freeze for enums" : String) ≠ "cannot derive for enums" :=
  ⟨rfl, by decide⟩

/-- Claim C5 (amended messages): an enum shape aborts with
"Can't derive freeze for enums", a union shape with
"Can't derive freeze for unions" (each regardless of field content,
which the enum/union arms never examine, provided the earlier generics
and option stages succeed), and a const generic parameter aborts with
"const generics not supported" unconditionally; in each case the
result is an error, so there is no partial output. -/
theorem freeze_reject_shapes (input : DeriveInput) :
    ((∃ t, format_impl_generics input.generics = Except.ok t) →
      (∃ o, extract_options input.attrs = Except.ok o) →
      input.data = DeclData.enum →
      derive_freeze input = Except.error "Can't derive freeze for enums") ∧
    ((∃ t, format_impl_generics input.generics = Except.ok t) →
      (∃ o, extract_options input.attrs = Except.ok o) →
      input.data = DeclData.union →
      derive_freeze input = Except.error "Can't derive freeze for unions") ∧
    (∀ n, GenericParam.const n ∈ input.generics →
      derive_freeze input = Except.error "const generics not supported") := by
  refine ⟨?_, ?_, ?_⟩
  · rintro ⟨⟨imps, ins, outs⟩, ht⟩ ⟨o, ho⟩ hdata
    simp [derive_freeze, ht, ho, hdata, freeze_impl, except_bind_ok, except_bind_error]
  · rintro ⟨⟨imps, ins, outs⟩, ht⟩ ⟨o, ho⟩ hdata
    simp [derive_freeze, ht, ho, hdata, freeze_impl, except_bind_ok, except_bind_error]
  · intro n hmem
    simp [derive_freeze, format_impl_generics, formatGenericsLoop_const_mem hmem, except_bind_error]

/-- Witness for C5: the three rejections at concrete declarations. -/
theorem freeze_reject_shapes_witness :
    derive_freeze enumInput = Except.error "Can't derive freeze for enums" ∧
    derive_freeze unionInput = Except.error "Can't derive freeze for unions" ∧
    derive_freeze constInput = Except.error "const generics not supported" :=
  ⟨(freeze_reject_shapes enumInput).1 ⟨_, rfl⟩ ⟨_, rfl⟩ rfl,
    (freeze_reject_shapes unionInput).2.1 ⟨_, rfl⟩ ⟨_, rfl⟩ rfl,
    (freeze_reject_shapes constInput).2.2 "N" (List.mem_cons_self _ _)⟩

/-- Claim C6: for a const-free declared parameter sequence the three
parameter lists are the pointwise images of the same sequence — so
their count and order agree, the impl list additionally starting with
the synthesized `'freeze` lifetime; a TypeParam appears as its bare
name in the input list and as `name::Frozen` in the output list, and a
LifetimeParam appears as `'static` in the output list. -/
theorem format_impl_generics_parallel (params : List GenericParam)
    (hconst : ∀ p ∈ params, p.isConst = false) :
    format_impl_generics params =
      Except.ok ("'freeze" :: params.map implEntry,
        params.map inputEntry, params.map outputEntry) := by
  simp [format_impl_generics, formatGenericsLoop_eq params hconst, except_bind_ok]

/-- Witness for C6 at `<'a, T: Clone>`. -/
theorem format_impl_generics_parallel_witness :
    format_impl_generics [GenericParam.lifetime "'a", GenericParam.type "T" ["Clone"]]
      = Except.ok (["'freeze", "'a", "T: Clone + starlark::values::Freeze"],
          ["'a", "T"], ["'static", "T::Frozen"]) := by
  have h := format_impl_generics_parallel
    [GenericParam.lifetime "'a", GenericParam.type "T" ["Clone"]] (by decide)
  rw [h]
  rfl

/-- Claim C2 counterexample: the claim says that when `bounds` is
configured the per-type-parameter capability bound is dropped from the
emitted implementation.  At `boundsInput` (one unbounded parameter `T`
with `#[freeze(bounds = "T: MyTrait")]`) the emitted impl generic list
still carries the entry `T: starlark::values::Freeze` — not the bare
re-declaration `T` the claim requires — while the override is only
added as a `where` clause. -/
theorem freeze_bounds_not_dropped :
    Except.map (fun g => (g.impl_params, g.where_clause)) (derive_freeze boundsInput)
      = Except.ok (["'freeze", "T: starlark::values::Freeze"], some "T: MyTrait") ∧
    ("T: starlark::values::Freeze" : String) ≠ "T" :=
  ⟨rfl, by decide⟩

/-- Claim C2 (amended): when generation succeeds, the configured
`bounds` predicate is emitted as the impl's `where` clause, while the
impl generic parameter list — including the per-type-parameter
`starlark::values::Freeze` capability bounds — is exactly the list
computed by `format_impl_generics`, unchanged by the override. -/
theorem freeze_bounds_where_clause (input : DeriveInput) (g : GeneratedImpl)
    (opts : FreezeDeriveOptions)
    (hopts : extract_options input.attrs = Except.ok opts)
    (h : derive_freeze input = Except.ok g) :
    g.where_clause = opts.bounds ∧
    format_impl_generics input.generics
      = Except.ok (g.impl_params, g.input_params, g.output_params) := by
  cases ht : format_impl_generics input.generics with
  | error e => simp [derive_freeze, ht, except_bind_error] at h
  | ok t =>
    obtain ⟨imps, ins, outs⟩ := t
    cases hb : freeze_impl input.ident input.data with
    | error e =>
      simp [derive_freeze, ht, hopts, hb, except_bind_ok, except_bind_error] at h
    | ok body =>
      simp only [derive_freeze, ht, hopts, hb, except_bind_ok] at h
      cases h
      exact ⟨rfl, rfl⟩

/-- The implementation emitted for `boundsInput`. -/
def boundsGen : GeneratedImpl :=
  ⟨"S", ["'freeze", "T: starlark::values::Freeze"], ["T"], ["T::Frozen"],
    none, some "T: MyTrait", GenBody.okNamed "S" [FieldPlan.namedFreeze "field"]⟩

/-- Witness for C2 at `boundsInput`. -/
theorem freeze_bounds_where_clause_witness :
    boundsGen.where_clause = some "T: MyTrait" ∧
    format_impl_generics boundsInput.generics
      = Except.ok (boundsGen.impl_params, boundsGen.input_params, boundsGen.output_params) :=
  freeze_bounds_where_clause boundsInput boundsGen ⟨none, some "T: MyTrait"⟩ rfl rfl

/-- Claim C7: for a struct whose fields are all non-identity,
generation succeeds with one recursive-freeze fragment per field in
declaration order — named fields bound to their declared names,
positional fields to ascending indices `0..M-1` — and any run of the
emitted body in which the validator (if any) and all per-field
transformations succeed returns success carrying exactly M output
fields in the same order. -/
theorem freeze_struct_all_fields_frozen (name : String)
    (fs : List NamedField) (gs : List UnnamedField)
    {E V : Type} (env : FreezeEnv E V) (validate : Option (List V → Except E PUnit))
    (self self2 out out2 : List V)
    (hidn : ∀ f ∈ fs, is_identity f.attrs = Except.ok false)
    (hidp : ∀ g ∈ gs, is_identity g.attrs = Except.ok false)
    (hval : runValidate validate self = Except.ok PUnit.unit)
    (hval2 : runValidate validate self2 = Except.ok PUnit.unit)
    (hlen : self.length = fs.length)
    (hlen2 : self2.length = gs.length)
    (hsucc : freezeAll env.freezeFn self = Except.ok out)
    (hsucc2 : freezeAll env.freezeFieldFn self2 = Except.ok out2) :
    freeze_struct name (StructFields.named fs)
      = Except.ok (GenBody.okNamed name (fs.map fun f => FieldPlan.namedFreeze f.name)) ∧
    runFreeze env validate (fs.map fun f => FieldPlan.namedFreeze f.name) self
      = Except.ok out ∧
    out.length = fs.length ∧
    freeze_struct name (StructFields.unnamed gs)
      = Except.ok (GenBody.okUnnamed name ((List.range gs.length).map FieldPlan.posFreeze)) ∧
    runFreeze env validate ((List.range gs.length).map FieldPlan.posFreeze) self2
      = Except.ok out2 ∧
    out2.length = gs.length := by
  have hplans : planFields fs = Except.ok (fs.map fun f => FieldPlan.namedFreeze f.name) :=
    planFields_all_freeze fs hidn
  have hidp2 : ∀ p ∈ gs.enum, is_identity p.2.attrs = Except.ok false :=
    fun p hp => hidp p.2 (snd_mem_of_mem_enumFrom hp)
  have henum : (gs.enum.map fun p => FieldPlan.posFreeze p.1)
      = (List.range gs.length).map FieldPlan.posFreeze := by
    have h1 : (gs.enum.map fun p => FieldPlan.posFreeze p.1)
        = (gs.enum.map Prod.fst).map FieldPlan.posFreeze := by
      rw [List.map_map]
      rfl
    rw [h1, List.enum_map_fst]
  have hplans2 : planPosFields gs.enum
      = Except.ok ((List.range gs.length).map FieldPlan.posFreeze) := by
    rw [planPosFields_all_freeze gs.enum hidp2, henum]
  refine ⟨?_, ?_, ?_, ?_, ?_, ?_⟩
  · simp [freeze_struct, hplans, except_bind_ok]
  · rw [runFreeze, hval, except_bind_ok, runPlans_named_freeze env fs self hlen, hsucc]
  · rw [freezeAll_length env.freezeFn self out hsucc, hlen]
  · simp [freeze_struct, hplans2, except_bind_ok]
  · have hlen2r : self2.length = (List.range gs.length).length := by
      simp [hlen2]
    rw [runFreeze, hval2, except_bind_ok,
      runPlans_pos_freeze env (List.range gs.length) self2 hlen2r, hsucc2]
  · rw [freezeAll_length env.freezeFieldFn self2 out2 hsucc2, hlen2]

/-- An environment whose named-field procedure succeeds off zero with
successor and whose positional-field procedure succeeds off zero with
doubling, both failing on zero. -/
def witEnv : FreezeEnv String Nat :=
  ⟨fun n => if n = 0 then .error "boom" else .ok (n + 1),
    fun n => if n = 0 then .error "boom" else .ok (n * 2)⟩

/-- Witness for C7: a two-named-field struct and a one-positional-field
struct, all transformations succeeding. -/
theorem freeze_struct_all_fields_frozen_witness :
    freeze_struct "S" (StructFields.named [⟨"a", []⟩, ⟨"b", []⟩])
      = Except.ok (GenBody.okNamed "S"
          [FieldPlan.namedFreeze "a", FieldPlan.namedFreeze "b"]) ∧
    runFreeze witEnv none [FieldPlan.namedFreeze "a", FieldPlan.namedFreeze "b"] [1, 2]
      = Except.ok [2, 3] ∧
    ([2, 3] : List Nat).length = 2 ∧
    freeze_struct "S" (StructFields.unnamed [⟨[]⟩])
      = Except.ok (GenBody.okUnnamed "S" [FieldPlan.posFreeze 0]) ∧
    runFreeze witEnv none [FieldPlan.posFreeze 0] [3] = Except.ok [6] ∧
    ([6] : List Nat).length = 1 :=
  freeze_struct_all_fields_frozen "S" [⟨"a", []⟩, ⟨"b", []⟩] [⟨[]⟩] witEnv none
    [1, 2] [3] [2, 3] [6]
    (by intro f hf; fin_cases hf <;> rfl)
    (by intro g hg; fin_cases hg; rfl)
    rfl rfl rfl rfl rfl rfl

/-- Claim C8: in any run of the emitted body, a configured validator
that fails yields exactly that failure with no field transformation
attempted (the result is the same for every capability environment and
every fragment list); and a field whose transformation fails, all
fields before it having succeeded, yields exactly that failure with no
later field processed (the result is the same for every suffix). -/
theorem freeze_validator_first_short_circuit {E V : Type} (env : FreezeEnv E V)
    (f : List V → Except E PUnit) (plans : List FieldPlan) (self : List V)
    (e e2 : E) (vs : List V)
    (pre post : List (FieldPlan × V)) (p : FieldPlan) (v : V)
    (hfail : f self = Except.error e)
    (hpre : runPlans env pre = Except.ok vs)
    (hmid : runPlan env v p = Except.error e2) :
    runFreeze env (some f) plans self = Except.error e ∧
    runPlans env (pre ++ (p, v) :: post) = Except.error e2 := by
  constructor
  · rw [runFreeze, runValidate, hfail, except_bind_error]
  · induction pre generalizing vs with
    | nil =>
      simp [runPlans, hmid, except_bind_error]
    | cons q pre ih =>
      obtain ⟨qp, qv⟩ := q
      cases hq : runPlan env qv qp with
      | error eq =>
        rw [runPlans, hq, except_bind_error] at hpre
        cases hpre
      | ok w =>
        rw [runPlans, hq, except_bind_ok] at hpre
        cases hrest : runPlans env pre with
        | error er => rw [hrest, except_bind_error] at hpre; cases hpre
        | ok ws =>
          show (runPlan env qv qp >>= fun w2 =>
              runPlans env (pre ++ (p, v) :: post) >>= fun ws2 =>
                Except.ok (w2 :: ws2)) = _
          rw [hq, except_bind_ok, ih ws hrest, except_bind_error]

/-- Witness for C8: a failing validator short-circuits the whole body,
and a failing middle field short-circuits the suffix. -/
theorem freeze_validator_first_short_circuit_witness :
    runFreeze witEnv (some (fun _ => Except.error "invalid"))
        [FieldPlan.namedFreeze "a"] [1] = Except.error "invalid" ∧
    runPlans witEnv ([(FieldPlan.namedFreeze "a", 1)]
        ++ (FieldPlan.namedFreeze "b", 0) :: [(FieldPlan.namedFreeze "c", 5)])
      = Except.error "boom" :=
  freeze_validator_first_short_circuit witEnv (fun _ => Except.error "invalid")
    [FieldPlan.namedFreeze "a"] [1] "invalid" "boom" [2]
    [(FieldPlan.namedFreeze "a", 1)] [(FieldPlan.namedFreeze "c", 5)]
    (FieldPlan.namedFreeze "b") 0 rfl rfl rfl

/-- Claim C9: a field whose attributes parse as identity is planned as
an identity move (named or positional, whatever the remaining fields);
running that fragment returns the original value unchanged in every
capability environment — no recursive freeze call is made and no
capability is required of the field's type — and the fragment invokes
no capability procedure. -/
theorem freeze_identity_field_passthrough (n : String) (i : Nat) (attrs : List FieldAttr)
    (rest : List NamedField) (prest : List (Nat × UnnamedField))
    {E V : Type} (env : FreezeEnv E V) (v : V)
    (hid : is_identity attrs = Except.ok true) :
    planFields (⟨n, attrs⟩ :: rest)
      = Except.map (fun ps => FieldPlan.namedIdentity n :: ps) (planFields rest) ∧
    planPosFields ((i, ⟨attrs⟩) :: prest)
      = Except.map (fun ps => FieldPlan.posIdentity i :: ps) (planPosFields prest) ∧
    runPlan env v (FieldPlan.namedIdentity n) = Except.ok v ∧
    runPlan env v (FieldPlan.posIdentity i) = Except.ok v ∧
    FieldPlan.invokedProc (FieldPlan.namedIdentity n) = none ∧
    FieldPlan.invokedProc (FieldPlan.posIdentity i) = none := by
  refine ⟨?_, ?_, rfl, rfl, rfl, rfl⟩
  · cases hr : planFields rest with
    | error e =>
      show (is_identity attrs >>= fun id => planFields rest >>= fun plans =>
          Except.ok ((if id then FieldPlan.namedIdentity n else FieldPlan.namedFreeze n) :: plans)) = _
      rw [hid, except_bind_ok, hr, except_bind_error]
      rfl
    | ok ps =>
      show (is_identity attrs >>= fun id => planFields rest >>= fun plans =>
          Except.ok ((if id then FieldPlan.namedIdentity n else FieldPlan.namedFreeze n) :: plans)) = _
      rw [hid, except_bind_ok, hr, except_bind_ok]
      rfl
  · cases hr : planPosFields prest with
    | error e =>
      show (is_identity attrs >>= fun id => planPosFields prest >>= fun plans =>
          Except.ok ((if id then FieldPlan.posIdentity i else FieldPlan.posFreeze i) :: plans)) = _
      rw [hid, except_bind_ok, hr, except_bind_error]
      rfl
    | ok ps =>
      show (is_identity attrs >>= fun id => planPosFields prest >>= fun plans =>
          Except.ok ((if id then FieldPlan.posIdentity i else FieldPlan.posFreeze i) :: plans)) = _
      rw [hid, except_bind_ok, hr, except_bind_ok]
      rfl

/-- An environment in which neither capability procedure ever
succeeds: identity fields pass through it untouched. -/
def noCapEnv : FreezeEnv String Nat :=
  ⟨fun _ => .error "no capability", fun _ => .error "no capability"⟩

/-- Witness for C9: an identity-marked field passes through unchanged
even in the environment with no working capability procedure. -/
theorem freeze_identity_field_passthrough_witness :
    planFields [⟨"a", [⟨"freeze", FieldAttrContent.identity⟩]⟩]
      = Except.ok [FieldPlan.namedIdentity "a"] ∧
    planPosFields [(0, ⟨[⟨"freeze", FieldAttrContent.identity⟩]⟩)]
      = Except.ok [FieldPlan.posIdentity 0] ∧
    runPlan noCapEnv 7 (FieldPlan.namedIdentity "a") = Except.ok 7 ∧
    runPlan noCapEnv 7 (FieldPlan.posIdentity 0) = Except.ok 7 ∧
    FieldPlan.invokedProc (FieldPlan.namedIdentity "a") = none ∧
    FieldPlan.invokedProc (FieldPlan.posIdentity 0) = none :=
  freeze_identity_field_passthrough "a" 0 [⟨"freeze", FieldAttrContent.identity⟩]
    [] [] noCapEnv 7 rfl

/-- Claim C10: a field-level `#[freeze()]` with empty argument content
parses without a fatal error, yields `false` for the identity flag,
and the field is planned as a recursive freeze (named or positional). -/
theorem freeze_empty_field_attr_not_identity (n : String) (i : Nat) :
    is_identity [⟨"freeze", FieldAttrContent.empty⟩] = Except.ok false ∧
    planFields [⟨n, [⟨"freeze", FieldAttrContent.empty⟩]⟩]
      = Except.ok [FieldPlan.namedFreeze n] ∧
    planPosFields [(i, ⟨[⟨"freeze", FieldAttrContent.empty⟩]⟩)]
      = Except.ok [FieldPlan.posFreeze i] :=
  ⟨rfl, rfl, rfl⟩

end StarlarkDerive
